import Mathlib

/-
  Verification of the SpaceThreading repository (C sources under src/):
  a shallow embedding of the event queue (src/event.c), the resource
  ledger and system state machine (src/system.c, src/resource.c) and the
  manager control loop (src/manager.c, src/main.c), with theorems about
  the properties stated in spec.md.

  Machine integers of the C code are modelled as Int (no arithmetic here
  approaches the 32-bit overflow boundary in any claim); pointers to
  shared objects are modelled by embedding the pointed-to value and
  returning the updated value, with `none` standing for a null pointer.
  The status and priority constants live in defs.h, which is not under
  src/; the claims depend only on the distinctness of the status codes,
  so they are modelled as an inductive type.
-/

namespace SpaceSim

/-- Status codes STATUS_OK, STATUS_EMPTY, STATUS_INSUFFICIENT,
STATUS_CAPACITY from defs.h (not under src/); modelled as an inductive
type since the claims depend only on their distinctness. -/
inductive Status where
  | ok
  | empty
  | insufficient
  | capacity
deriving DecidableEq

/-- System status values STANDARD, SLOW, FAST, TERMINATE from defs.h. -/
inductive SysStatus where
  | standard
  | slow
  | fast
  | terminate
deriving DecidableEq

/-- PRIORITY_HIGH from defs.h (not under src/): the claims do not depend
on its numeric value. -/
def PRIORITY_HIGH : Int := 2

/-- A Resource (defs.h / src/resource.c): name, mutable amount, immutable
max_capacity. The per-resource mutex is modelled by the fact that each
operation on the resource is a single atomic function application. -/
structure Resource where
  name : String
  amount : Int
  max_capacity : Int
deriving DecidableEq

/-- A ResourceAmount (defs.h / src/resource.c): a possibly-null reference
to a Resource together with an amount. The pointed-to Resource is
embedded by value; `none` stands for a NULL resource pointer. -/
structure ResourceAmount where
  resource : Option Resource
  amount : Int
deriving DecidableEq

/-- A System (defs.h / src/system.c). The event_queue pointer and the
mutex are not part of the per-system state modelled here; the queue is
passed explicitly where needed. -/
structure System where
  name : String
  consumed : ResourceAmount
  produced : ResourceAmount
  amount_stored : Int
  processing_time : Int
  status : SysStatus
deriving DecidableEq

/-- An Event (defs.h / src/event.c). The system and resource pointers
are modelled by the fields the manager reads through them: the system
name and the resource name. -/
structure Event where
  system_name : String
  resource_name : String
  status : Status
  priority : Int
  amount : Int
deriving DecidableEq

/-- The EventQueue (defs.h / src/event.c): the linked list of nodes is
modelled as a Lean list (head first); `size` is the int counter kept by
the C code. The queue mutex is modelled by each queue operation being a
single atomic function application. -/
structure EventQueue where
  head : List Event
  size : Int
deriving DecidableEq

/-- Embeds event_queue_init (src/event.c): head = NULL, size = 0. -/
def event_queue_init : EventQueue :=
  { head := [], size := 0 }

/-- Embeds the insertion walk of event_queue_push (src/event.c lines
88-94): starting from the node after the head, advance while the next
node exists and has priority >= the new event's priority, then link the
new node in. -/
def insert_walk (e : Event) : List Event → List Event
  | [] => [e]
  | n :: rest =>
    if n.priority ≥ e.priority then n :: insert_walk e rest
    else e :: n :: rest

/-- Embeds event_queue_push (src/event.c): if the queue is empty or the
head has strictly lower priority than the new event, the new node
becomes the head; otherwise the node is inserted by the walk after the
head. size is incremented. -/
def event_queue_push (q : EventQueue) (e : Event) : EventQueue :=
  match q.head with
  | [] => { head := [e], size := q.size + 1 }
  | c :: rest =>
    if c.priority < e.priority then { head := e :: c :: rest, size := q.size + 1 }
    else { head := c :: insert_walk e rest, size := q.size + 1 }

/-- Embeds event_queue_pop (src/event.c): returns none when the queue is
empty (the C function returns 0); otherwise removes and returns the head
event and decrements size. -/
def event_queue_pop (q : EventQueue) : Option (Event × EventQueue) :=
  match q.head with
  | [] => none
  | e :: rest => some (e, { head := rest, size := q.size - 1 })

/-- A sequence of pushes, in order. -/
def push_all (q : EventQueue) : List Event → EventQueue
  | [] => q
  | e :: es => push_all (event_queue_push q e) es

/-- Pops the queue n times, collecting the successfully popped events
in order; stops early if the queue empties. -/
def pop_n (q : EventQueue) : Nat → List Event
  | 0 => []
  | n + 1 =>
    match event_queue_pop q with
    | none => []
    | some (e, q2) => e :: pop_n q2 n

/- Helper characterisation of the insertion: a single-pass ordered
insert that places the new event before the first strictly
lower-priority node (hence after all nodes of equal priority). -/

/-- One-pass form of the priority insertion performed by
event_queue_push: insert before the first node of strictly lower
priority. -/
def insertB (e : Event) : List Event → List Event
  | [] => [e]
  | c :: rest =>
    if c.priority < e.priority then e :: c :: rest
    else c :: insertB e rest

theorem insert_walk_eq_insertB (e : Event) :
    ∀ l : List Event, insert_walk e l = insertB e l := by
  intro l
  induction l with
  | nil => rfl
  | cons n rest ih =>
    by_cases h : n.priority < e.priority
    · simp [insert_walk, insertB, h, not_le.mpr h]
    · simp [insert_walk, insertB, h, not_lt.mp h, ih]

theorem push_head (q : EventQueue) (e : Event) :
    (event_queue_push q e).head = insertB e q.head := by
  cases hq : q.head with
  | nil => simp [event_queue_push, hq, insertB]
  | cons c rest =>
    by_cases h : c.priority < e.priority
    · simp [event_queue_push, hq, h, insertB]
    · simp [event_queue_push, hq, h, insertB, insert_walk_eq_insertB]

theorem push_size (q : EventQueue) (e : Event) :
    (event_queue_push q e).size = q.size + 1 := by
  cases hq : q.head with
  | nil => simp [event_queue_push, hq]
  | cons c rest =>
    by_cases h : c.priority < e.priority
    · simp [event_queue_push, hq, h]
    · simp [event_queue_push, hq, h]

theorem insertB_length (e : Event) :
    ∀ l : List Event, (insertB e l).length = l.length + 1 := by
  intro l
  induction l with
  | nil => rfl
  | cons c rest ih =>
    by_cases h : c.priority < e.priority
    · simp [insertB, h]
    · simp [insertB, h, ih]

theorem mem_insertB {x e : Event} :
    ∀ {l : List Event}, x ∈ insertB e l → x = e ∨ x ∈ l := by
  intro l
  induction l with
  | nil => intro h; simpa [insertB] using h
  | cons c rest ih =>
    intro h
    by_cases hc : c.priority < e.priority
    · simp only [insertB, if_pos hc, List.mem_cons] at h
      rcases h with h | h | h
      · exact Or.inl h
      · exact Or.inr (by simp [h])
      · exact Or.inr (by simp [h])
    · simp only [insertB, if_neg hc, List.mem_cons] at h
      rcases h with h | h
      · exact Or.inr (by simp [h])
      · rcases ih h with h | h
        · exact Or.inl h
        · exact Or.inr (by simp [h])

/-- The non-increasing-priority ordering relation on events. -/
def prioGE (a b : Event) : Prop := b.priority ≤ a.priority

theorem sorted_insertB (e : Event) :
    ∀ {l : List Event}, List.Pairwise prioGE l →
      List.Pairwise prioGE (insertB e l) := by
  intro l
  induction l with
  | nil => intro _; simp [insertB, prioGE]
  | cons c rest ih =>
    intro h
    rw [List.pairwise_cons] at h
    by_cases hc : c.priority < e.priority
    · rw [insertB, if_pos hc, List.pairwise_cons]
      refine ⟨?_, List.pairwise_cons.mpr h⟩
      intro b hb
      rcases List.mem_cons.mp hb with hb | hb
      · subst hb; exact le_of_lt hc
      · exact le_trans (h.1 b hb) (le_of_lt hc)
    · rw [insertB, if_neg hc, List.pairwise_cons]
      refine ⟨?_, ih h.2⟩
      intro b hb
      rcases mem_insertB hb with hb | hb
      · subst hb; exact not_lt.mp hc
      · exact h.1 b hb

theorem filter_insertB (p : Int) (e : Event) :
    ∀ {l : List Event}, List.Pairwise prioGE l →
      (insertB e l).filter (fun x => x.priority == p)
        = l.filter (fun x => x.priority == p)
          ++ (if e.priority == p then [e] else []) := by
  intro l
  induction l with
  | nil =>
    intro _
    by_cases hp : e.priority == p
    · simp [insertB, hp]
    · simp [insertB, hp]
  | cons c rest ih =>
    intro h
    rw [List.pairwise_cons] at h
    by_cases hc : c.priority < e.priority
    · rw [insertB, if_pos hc]
      by_cases hp : e.priority = p
      · have hnil : (c :: rest).filter (fun x => x.priority == p) = [] := by
          rw [List.filter_eq_nil_iff]
          intro a ha
          rcases List.mem_cons.mp ha with ha | ha
          · subst ha
            simp only [beq_iff_eq]
            omega
          · have : a.priority ≤ c.priority := h.1 a ha
            simp only [beq_iff_eq]
            omega
        simp [List.filter_cons, hp, hnil]
      · have hpb : (e.priority == p) = false := by simp [hp]
        simp [List.filter_cons, hpb]
    · rw [insertB, if_neg hc]
      rw [List.filter_cons, List.filter_cons]
      by_cases hcp : c.priority == p
      · simp only [hcp, if_pos]
        rw [ih h.2]
        simp
      · simp only [hcp]
        rw [ih h.2]
        simp

theorem push_all_head_pairwise (es : List Event) :
    ∀ q : EventQueue, List.Pairwise prioGE q.head →
      List.Pairwise prioGE (push_all q es).head := by
  induction es with
  | nil => intro q h; simpa [push_all] using h
  | cons e es ih =>
    intro q h
    rw [push_all]
    exact ih _ (by rw [push_head]; exact sorted_insertB e h)

theorem push_all_head_filter (p : Int) (es : List Event) :
    ∀ q : EventQueue, List.Pairwise prioGE q.head →
      (push_all q es).head.filter (fun x => x.priority == p)
        = q.head.filter (fun x => x.priority == p)
          ++ es.filter (fun x => x.priority == p) := by
  induction es with
  | nil => intro q _; simp [push_all]
  | cons e es ih =>
    intro q h
    rw [push_all]
    rw [ih _ (by rw [push_head]; exact sorted_insertB e h)]
    rw [push_head, filter_insertB p e h]
    by_cases hp : e.priority == p
    · simp [List.filter_cons, hp]
    · simp [List.filter_cons, hp]

theorem push_all_head_length (es : List Event) :
    ∀ q : EventQueue,
      (push_all q es).head.length = q.head.length + es.length := by
  induction es with
  | nil => intro q; simp [push_all]
  | cons e es ih =>
    intro q
    rw [push_all, ih, push_head, insertB_length]
    simp [List.length_cons]
    omega

theorem pop_n_all :
    ∀ (l : List Event) (q : EventQueue), q.head = l → pop_n q l.length = l := by
  intro l
  induction l with
  | nil => intro q h; simp [pop_n]
  | cons e rest ih =>
    intro q h
    rw [List.length_cons, pop_n, event_queue_pop, h]
    simp only []
    rw [ih { head := rest, size := q.size - 1 } rfl]

/- Resource ledger and system state machine (src/system.c). -/

/-- Embeds the locked section of system_convert (src/system.c lines
124-131), acting on the consumed resource: if amount >= amount_consumed,
subtract and report STATUS_OK; otherwise report STATUS_EMPTY when the
amount is exactly 0 and STATUS_INSUFFICIENT otherwise, leaving the
resource unchanged. -/
def try_consume (r : Resource) (amount_consumed : Int) : Resource × Status :=
  if r.amount ≥ amount_consumed then
    ({ r with amount := r.amount - amount_consumed }, Status.ok)
  else if r.amount = 0 then (r, Status.empty)
  else (r, Status.insufficient)

/-- A sequence of consume operations applied in order, keeping the
resource state (statuses discarded). -/
def consume_seq (r : Resource) : List Int → Resource
  | [] => r
  | a :: rest => consume_seq (try_consume r a).1 rest

/-- Embeds the locked section of system_store_resources (src/system.c
lines 194-203): stores as much of amount_to_store as fits below
max_capacity, returning the updated resource and the leftover that
remains in amount_stored. -/
def try_store (r : Resource) (amount_to_store : Int) : Resource × Int :=
  if r.max_capacity - r.amount ≥ amount_to_store then
    ({ r with amount := r.amount + amount_to_store }, 0)
  else if r.max_capacity - r.amount > 0 then
    ({ r with amount := r.amount + (r.max_capacity - r.amount) },
     amount_to_store - (r.max_capacity - r.amount))
  else (r, amount_to_store)

/-- Embeds the success branch of system_convert (src/system.c lines
136-144): after a successful consumption the process time is simulated
(a sleep, modelled separately by sleep_duration_us) and amount_stored
is increased by produced.amount, or reset to 0 when the produced
resource pointer is NULL. -/
def convert_success_update (s : System) : System :=
  match s.produced.resource with
  | some _ => { s with amount_stored := s.amount_stored + s.produced.amount }
  | none => { s with amount_stored := 0 }

/-- Embeds system_convert (src/system.c lines 118-147): a NULL consumed
resource is trivially successful; otherwise the locked consume section
runs; on STATUS_OK the success update applies. -/
def system_convert (s : System) : System × Status :=
  let step :=
    match s.consumed.resource with
    | none => (s, Status.ok)
    | some r =>
      let res := try_consume r s.consumed.amount
      ({ s with consumed := { s.consumed with resource := some res.1 } }, res.2)
  if step.2 = Status.ok then (convert_success_update step.1, Status.ok)
  else step

/-- Embeds the switch of system_simulate_process_time (src/system.c
lines 157-174): SLOW doubles the processing time, FAST halves it with C
int division (truncation toward zero), anything else leaves it as is. -/
def adjusted_processing_time (s : System) : Int :=
  match s.status with
  | SysStatus.slow => s.processing_time * 2
  | SysStatus.fast => s.processing_time.tdiv 2
  | _ => s.processing_time

/-- The duration in microseconds of the usleep performed by
system_simulate_process_time: usleep(adjusted_processing_time * 1000). -/
def sleep_duration_us (s : System) : Int :=
  adjusted_processing_time s * 1000

/-- Embeds system_store_resources (src/system.c lines 186-209): a NULL
produced resource or an empty buffer resets amount_stored to 0 and
reports STATUS_OK; otherwise the locked store section runs and the
status is STATUS_OK exactly when nothing was left over. -/
def system_store_resources (s : System) : System × Status :=
  match s.produced.resource with
  | none => ({ s with amount_stored := 0 }, Status.ok)
  | some r =>
    if s.amount_stored = 0 then ({ s with amount_stored := 0 }, Status.ok)
    else
      let res := try_store r s.amount_stored
      let s2 := { s with
        produced := { s.produced with resource := some res.1 },
        amount_stored := res.2 }
      (s2, if s2.amount_stored = 0 then Status.ok else Status.capacity)

/-- Embeds the first phase of system_run (src/system.c lines 83-96): when
amount_stored == 0 the system attempts a conversion and, on failure,
builds a HIGH-priority event by reading system->consumed.resource->name
and ->amount. The result is none exactly when that read would
dereference a NULL pointer (the sleeps are not modelled). -/
def system_run_phase1 (s : System) (q : EventQueue) : Option (System × EventQueue) :=
  if s.amount_stored = 0 then
    match system_convert s with
    | (s2, Status.ok) => some (s2, q)
    | (s2, st) =>
      match s2.consumed.resource with
      | none => none
      | some r =>
        some (s2, event_queue_push q
          { system_name := s2.name, resource_name := r.name,
            status := st, priority := PRIORITY_HIGH, amount := r.amount })
  else some (s, q)

/- Manager control loop (src/manager.c, src/main.c). -/

/-- The manager state visible to the claims (src/manager.c): the
simulation_running flag and the system array. -/
structure ManagerState where
  simulation_running : Bool
  systems : List System
deriving DecidableEq

/-- Embeds the event-handling body of the manager loop (src/manager.c
lines 67-85): an event whose status is STATUS_EMPTY on a resource named
Oxygen or Fuel stops the simulation and sets every system's status to
TERMINATE; every other event only gets printed and changes nothing. -/
def manager_handle_event (m : ManagerState) (e : Event) : ManagerState :=
  if e.status = Status.empty ∧
      (e.resource_name = "Oxygen" ∨ e.resource_name = "Fuel") then
    { simulation_running := false,
      systems := m.systems.map (fun s => { s with status := SysStatus.terminate }) }
  else m

/-- Embeds the validation at the top of manager_run (src/manager.c lines
46-50): an empty system array prints an error, clears
simulation_running and returns without creating any threads. The second
component records whether the simulation proceeded. -/
def manager_run_validate (m : ManagerState) : ManagerState × Bool :=
  if m.systems.length = 0 then
    ({ m with simulation_running := false }, false)
  else (m, true)

/-- Embeds the exit status of main (src/main.c): when manager_run
returns — in particular on the empty-system-array early return — main
cleans up and returns 0. The full concurrent simulation path is not
modelled (none). -/
def main_exit_status (m : ManagerState) : Option Int :=
  if (manager_run_validate m).2 then none
  else some 0

/- Operation sequences on the event queue, for the size invariant. -/

/-- A queue operation: a push of a given event, or a pop attempt. -/
inductive QOp where
  | push (e : Event)
  | pop
deriving DecidableEq

/-- Runs a sequence of queue operations; a pop on an empty queue leaves
the queue unchanged (the C function returns 0 without touching it). -/
def run_ops (q : EventQueue) : List QOp → EventQueue
  | [] => q
  | QOp.push e :: ops => run_ops (event_queue_push q e) ops
  | QOp.pop :: ops =>
    match event_queue_pop q with
    | none => run_ops q ops
    | some res => run_ops res.2 ops

/-- The number of pushes in an operation sequence. -/
def count_pushes : List QOp → Nat
  | [] => 0
  | QOp.push _ :: ops => count_pushes ops + 1
  | QOp.pop :: ops => count_pushes ops

/-- The number of successful pops when running the sequence from the
given queue. -/
def successful_pops (q : EventQueue) : List QOp → Nat
  | [] => 0
  | QOp.push e :: ops => successful_pops (event_queue_push q e) ops
  | QOp.pop :: ops =>
    match event_queue_pop q with
    | none => successful_pops q ops
    | some res => successful_pops res.2 ops + 1

/- Helper lemmas for the resource ledger. -/

theorem try_consume_amount_nonneg (r : Resource) (a : Int) (h : 0 ≤ r.amount) :
    0 ≤ (try_consume r a).1.amount := by
  unfold try_consume
  by_cases h1 : r.amount ≥ a
  · rw [if_pos h1]; simp; omega
  · rw [if_neg h1]
    by_cases h2 : r.amount = 0
    · rw [if_pos h2]; simpa using h
    · rw [if_neg h2]; simpa using h

theorem consume_seq_nonneg :
    ∀ (as : List Int) (r : Resource), 0 ≤ r.amount →
      0 ≤ (consume_seq r as).amount
  | [], r, h => by simpa [consume_seq] using h
  | a :: rest, r, h => by
    rw [consume_seq]
    exact consume_seq_nonneg rest _ (try_consume_amount_nonneg r a h)

/-- C1: for every sequence of event_queue_push calls on an initialized
EventQueue, draining the queue by event_queue_pop returns the events in
non-increasing priority order, and the events of each fixed priority
come back in their original push order (FIFO per priority band); in
particular, pushing priorities [5,1,5,3] and popping four times yields
[5,5,3,1] with the two priority-5 events in push order. -/
theorem event_queue_priority_fifo :
    (∀ es : List Event,
      pop_n (push_all event_queue_init es) es.length
        = (push_all event_queue_init es).head) ∧
    (∀ es : List Event,
      List.Pairwise prioGE (push_all event_queue_init es).head) ∧
    (∀ (es : List Event) (p : Int),
      (push_all event_queue_init es).head.filter (fun x => x.priority == p)
        = es.filter (fun x => x.priority == p)) ∧
    pop_n (push_all event_queue_init
        [⟨"A", "R", Status.ok, 5, 0⟩, ⟨"B", "R", Status.ok, 1, 0⟩,
         ⟨"C", "R", Status.ok, 5, 0⟩, ⟨"D", "R", Status.ok, 3, 0⟩]) 4
      = [⟨"A", "R", Status.ok, 5, 0⟩, ⟨"C", "R", Status.ok, 5, 0⟩,
         ⟨"D", "R", Status.ok, 3, 0⟩, ⟨"B", "R", Status.ok, 1, 0⟩] := by
  refine ⟨?_, ?_, ?_, by decide⟩
  · intro es
    have hl : (push_all event_queue_init es).head.length = es.length := by
      rw [push_all_head_length]
      simp [event_queue_init]
    rw [← hl]
    exact pop_n_all _ _ rfl
  · intro es
    exact push_all_head_pairwise es event_queue_init (by simp [event_queue_init])
  · intro es p
    rw [push_all_head_filter p es event_queue_init (by simp [event_queue_init])]
    simp [event_queue_init]

/-- Size bookkeeping of a queue-operation sequence: the size counter
always equals the number of linked nodes, and equals the starting size
plus pushes minus successful pops. -/
theorem run_ops_size_spec (ops : List QOp) :
    ∀ q : EventQueue, q.size = q.head.length →
      (run_ops q ops).size = (run_ops q ops).head.length ∧
      (run_ops q ops).size
        = q.size + (count_pushes ops : Int) - (successful_pops q ops : Int) := by
  induction ops with
  | nil =>
    intro q h
    refine ⟨h, ?_⟩
    simp [run_ops, count_pushes, successful_pops]
  | cons op ops ih =>
    cases op with
    | push e =>
      intro q h
      have h2 : (event_queue_push q e).size = (event_queue_push q e).head.length := by
        rw [push_size, push_head, insertB_length, h]
        push_cast
        ring
      obtain ⟨ha, hb⟩ := ih _ h2
      rw [show run_ops q (QOp.push e :: ops) = run_ops (event_queue_push q e) ops from rfl]
      refine ⟨ha, ?_⟩
      rw [hb, push_size]
      rw [show count_pushes (QOp.push e :: ops) = count_pushes ops + 1 from rfl]
      rw [show successful_pops q (QOp.push e :: ops)
        = successful_pops (event_queue_push q e) ops from rfl]
      push_cast
      ring
    | pop =>
      intro q h
      cases hq : q.head with
      | nil =>
        have hpop : event_queue_pop q = none := by rw [event_queue_pop, hq]
        obtain ⟨ha, hb⟩ := ih q h
        rw [show run_ops q (QOp.pop :: ops)
          = (match event_queue_pop q with
             | none => run_ops q ops
             | some res => run_ops res.2 ops) from rfl, hpop]
        refine ⟨ha, ?_⟩
        rw [hb]
        rw [show count_pushes (QOp.pop :: ops) = count_pushes ops from rfl]
        rw [show successful_pops q (QOp.pop :: ops)
          = (match event_queue_pop q with
             | none => successful_pops q ops
             | some res => successful_pops res.2 ops + 1) from rfl, hpop]
      | cons x rest =>
        have hpop : event_queue_pop q
            = some (x, { head := rest, size := q.size - 1 }) := by
          rw [event_queue_pop, hq]
        have h2 : (EventQueue.mk rest (q.size - 1)).size
            = (EventQueue.mk rest (q.size - 1)).head.length := by
          simp only []
          rw [h, hq]
          push_cast [List.length_cons]
          ring
        obtain ⟨ha, hb⟩ := ih _ h2
        rw [show run_ops q (QOp.pop :: ops)
          = (match event_queue_pop q with
             | none => run_ops q ops
             | some res => run_ops res.2 ops) from rfl, hpop]
        refine ⟨ha, ?_⟩
        rw [hb]
        rw [show count_pushes (QOp.pop :: ops) = count_pushes ops from rfl]
        rw [show successful_pops q (QOp.pop :: ops)
          = (match event_queue_pop q with
             | none => successful_pops q ops
             | some res => successful_pops res.2 ops + 1) from rfl, hpop]
        simp only []
        push_cast
        ring

/-- C7: starting from an initialized EventQueue, after any sequence of
pushes and pops the size counter equals the number of linked nodes, the
number m of successful pops never exceeds the number k of pushes, and
size = k - m. -/
theorem event_queue_size_invariant :
    ∀ ops : List QOp,
      (run_ops event_queue_init ops).size
        = (run_ops event_queue_init ops).head.length ∧
      successful_pops event_queue_init ops ≤ count_pushes ops ∧
      (run_ops event_queue_init ops).size
        = (count_pushes ops : Int) - (successful_pops event_queue_init ops : Int) := by
  intro ops
  obtain ⟨h1, h2⟩ := run_ops_size_spec ops event_queue_init (by simp [event_queue_init])
  rw [show event_queue_init.size = 0 from rfl] at h2
  rw [zero_add] at h2
  refine ⟨h1, ?_, h2⟩
  have h3 : (0 : Int) ≤ ((run_ops event_queue_init ops).head.length : Int) := by
    positivity
  omega

/-- C2: the consume operation (the locked section of system_convert)
subtracts the requested amount and reports STATUS_OK when enough is
available; otherwise it leaves the resource unchanged and reports
STATUS_EMPTY when the amount is exactly 0, STATUS_INSUFFICIENT
otherwise; and under any sequence of consume operations a nonnegative
amount never becomes negative. -/
theorem try_consume_spec (r : Resource) (a : Int) :
    (r.amount ≥ a →
      try_consume r a = ({ r with amount := r.amount - a }, Status.ok)) ∧
    (r.amount < a → r.amount = 0 → try_consume r a = (r, Status.empty)) ∧
    (r.amount < a → r.amount ≠ 0 → try_consume r a = (r, Status.insufficient)) ∧
    (0 ≤ r.amount → ∀ as : List Int, 0 ≤ (consume_seq r as).amount) := by
  refine ⟨?_, ?_, ?_, ?_⟩
  · intro h
    rw [try_consume, if_pos h]
  · intro h h0
    rw [try_consume, if_neg (not_le.mpr h), if_pos h0]
  · intro h h0
    rw [try_consume, if_neg (not_le.mpr h), if_neg h0]
  · intro h as
    exact consume_seq_nonneg as r h

/-- Witness for try_consume_spec: each branch exercised on concrete
resources. -/
theorem try_consume_spec_witness :
    try_consume ⟨"Fuel", 10, 100⟩ 5 = (⟨"Fuel", 5, 100⟩, Status.ok) ∧
    try_consume ⟨"Fuel", 0, 100⟩ 5 = (⟨"Fuel", 0, 100⟩, Status.empty) ∧
    try_consume ⟨"Fuel", 3, 100⟩ 5 = (⟨"Fuel", 3, 100⟩, Status.insufficient) ∧
    0 ≤ (consume_seq ⟨"Fuel", 10, 100⟩ [5, 5, 5]).amount := by
  refine ⟨((try_consume_spec ⟨"Fuel", 10, 100⟩ 5).1 (by decide)).trans (by decide),
    (try_consume_spec ⟨"Fuel", 0, 100⟩ 5).2.1 (by decide) (by decide),
    (try_consume_spec ⟨"Fuel", 3, 100⟩ 5).2.2.1 (by decide) (by decide),
    (try_consume_spec ⟨"Fuel", 10, 100⟩ 5).2.2.2 (by decide) [5, 5, 5]⟩

/-- C6: starting from a Resource satisfying 0 <= amount <= max_capacity,
both the consume operation and the store operation (with nonnegative
operation amounts, as configured by the data loader) preserve the
invariant. -/
theorem resource_invariant_preserved (r : Resource) (a b : Int)
    (h0 : 0 ≤ r.amount) (hcap : r.amount ≤ r.max_capacity)
    (ha : 0 ≤ a) (hb : 0 ≤ b) :
    (0 ≤ (try_consume r a).1.amount ∧
      (try_consume r a).1.amount ≤ (try_consume r a).1.max_capacity) ∧
    (0 ≤ (try_store r b).1.amount ∧
      (try_store r b).1.amount ≤ (try_store r b).1.max_capacity) := by
  refine ⟨?_, ?_⟩
  · unfold try_consume
    by_cases h1 : r.amount ≥ a
    · rw [if_pos h1]
      refine ⟨by simp; omega, by simp; omega⟩
    · rw [if_neg h1]
      by_cases h2 : r.amount = 0
      · rw [if_pos h2]
        exact ⟨h0, hcap⟩
      · rw [if_neg h2]
        exact ⟨h0, hcap⟩
  · unfold try_store
    by_cases h1 : r.max_capacity - r.amount ≥ b
    · rw [if_pos h1]
      refine ⟨by simp; omega, by simp; omega⟩
    · rw [if_neg h1]
      by_cases h2 : r.max_capacity - r.amount > 0
      · rw [if_pos h2]
        refine ⟨by simp; omega, by simp⟩
      · rw [if_neg h2]
        exact ⟨h0, hcap⟩

/-- Witness for resource_invariant_preserved at the initial Oxygen
resource of the data loader. -/
theorem resource_invariant_preserved_witness :
    (0 ≤ (try_consume ⟨"Oxygen", 20, 50⟩ 1).1.amount ∧
      (try_consume ⟨"Oxygen", 20, 50⟩ 1).1.amount
        ≤ (try_consume ⟨"Oxygen", 20, 50⟩ 1).1.max_capacity) ∧
    (0 ≤ (try_store ⟨"Oxygen", 20, 50⟩ 4).1.amount ∧
      (try_store ⟨"Oxygen", 20, 50⟩ 4).1.amount
        ≤ (try_store ⟨"Oxygen", 20, 50⟩ 4).1.max_capacity) :=
  resource_invariant_preserved ⟨"Oxygen", 20, 50⟩ 1 4
    (by decide) (by decide) (by decide) (by decide)

/-- C3: for a Resource within its capacity bound and a System with a
positive buffered amount and a non-null produced resource,
system_store_resources stores exactly min(amount_stored, max_capacity -
amount) into the resource, keeps the leftover in amount_stored, reports
STATUS_OK exactly when everything fit and STATUS_CAPACITY otherwise,
and the resource amount never exceeds max_capacity. -/
theorem system_store_resources_spec (s : System) (r : Resource)
    (hres : s.produced.resource = some r)
    (h0 : 0 ≤ r.amount) (hcap : r.amount ≤ r.max_capacity)
    (hstored : 0 < s.amount_stored) :
    (system_store_resources s).1.produced.resource
      = some { r with
          amount := r.amount + min s.amount_stored (r.max_capacity - r.amount) } ∧
    (system_store_resources s).1.amount_stored
      = s.amount_stored - min s.amount_stored (r.max_capacity - r.amount) ∧
    (system_store_resources s).2
      = (if s.amount_stored ≤ r.max_capacity - r.amount then Status.ok
         else Status.capacity) ∧
    r.amount + min s.amount_stored (r.max_capacity - r.amount)
      ≤ r.max_capacity := by
  obtain ⟨rn, ra, rm⟩ := r
  simp only at h0 hcap
  have hne : s.amount_stored ≠ 0 := by omega
  simp only [system_store_resources, hres, if_neg hne]
  unfold try_store
  by_cases h1 : rm - ra ≥ s.amount_stored
  · rw [if_pos h1]
    refine ⟨?_, ?_, ?_, ?_⟩
    · simp only [Option.some.injEq, Resource.mk.injEq, true_and, and_true]
      omega
    · show (0 : Int) = s.amount_stored - min s.amount_stored (rm - ra)
      omega
    · rw [if_pos (show s.amount_stored ≤ rm - ra by omega)]
      simp
    · show ra + min s.amount_stored (rm - ra) ≤ rm
      omega
  · rw [if_neg h1]
    by_cases h2 : rm - ra > 0
    · rw [if_pos h2]
      refine ⟨?_, ?_, ?_, ?_⟩
      · simp only [Option.some.injEq, Resource.mk.injEq, true_and, and_true]
        omega
      · show s.amount_stored - (rm - ra)
          = s.amount_stored - min s.amount_stored (rm - ra)
        omega
      · rw [if_neg (show ¬ s.amount_stored ≤ rm - ra by omega)]
        rw [if_neg (show ¬ ((({ name := rn, amount := ra, max_capacity := rm }
          : Resource), s.amount_stored - (rm - ra)).2 = 0) by simp; omega)]
      · show ra + min s.amount_stored (rm - ra) ≤ rm
        omega
    · rw [if_neg h2]
      refine ⟨?_, ?_, ?_, ?_⟩
      · simp only [Option.some.injEq, Resource.mk.injEq, true_and, and_true]
        omega
      · show s.amount_stored
          = s.amount_stored - min s.amount_stored (rm - ra)
        omega
      · rw [if_neg (show ¬ s.amount_stored ≤ rm - ra by omega)]
        rw [if_neg (show ¬ ((({ name := rn, amount := ra, max_capacity := rm }
          : Resource), s.amount_stored).2 = 0) by simpa using hne)]
      · show ra + min s.amount_stored (rm - ra) ≤ rm
        omega

/-- Witness for system_store_resources_spec at the spec scenario:
storing 25 into Distance(4990/5000) stores 10, leaves 15 buffered and
reports STATUS_CAPACITY. -/
theorem system_store_resources_spec_witness :
    (system_store_resources
        ⟨"Propulsion", ⟨none, 0⟩, ⟨some ⟨"Distance", 4990, 5000⟩, 25⟩,
          25, 50, SysStatus.standard⟩).1.produced.resource
      = some ⟨"Distance", 5000, 5000⟩ ∧
    (system_store_resources
        ⟨"Propulsion", ⟨none, 0⟩, ⟨some ⟨"Distance", 4990, 5000⟩, 25⟩,
          25, 50, SysStatus.standard⟩).1.amount_stored = 15 ∧
    (system_store_resources
        ⟨"Propulsion", ⟨none, 0⟩, ⟨some ⟨"Distance", 4990, 5000⟩, 25⟩,
          25, 50, SysStatus.standard⟩).2 = Status.capacity := by
  have h := system_store_resources_spec
    ⟨"Propulsion", ⟨none, 0⟩, ⟨some ⟨"Distance", 4990, 5000⟩, 25⟩,
      25, 50, SysStatus.standard⟩
    ⟨"Distance", 4990, 5000⟩ rfl (by decide) (by decide) (by decide)
  exact ⟨h.1.trans (by decide), h.2.1.trans (by decide),
    h.2.2.1.trans (by decide)⟩

/-- C4 counterexample: a STATUS_CAPACITY event on the critical resource
Oxygen does not stop the simulation and does not terminate any system —
the manager's critical branch fires only on STATUS_EMPTY. -/
theorem manager_capacity_event_no_shutdown :
    manager_handle_event
        ⟨true, [⟨"Propulsion", ⟨none, 0⟩, ⟨none, 0⟩, 0, 50, SysStatus.standard⟩]⟩
        ⟨"Propulsion", "Oxygen", Status.capacity, 1, 0⟩
      = ⟨true, [⟨"Propulsion", ⟨none, 0⟩, ⟨none, 0⟩, 0, 50, SysStatus.standard⟩]⟩ := by
  decide

/-- C4 (amended): whenever the manager pops an event whose status is
STATUS_EMPTY on a resource named Oxygen or Fuel (the critical
resources), it sets simulation_running to false and sets every system's
status to TERMINATE. -/
theorem manager_critical_empty_shutdown (m : ManagerState) (e : Event)
    (h1 : e.status = Status.empty)
    (h2 : e.resource_name = "Oxygen" ∨ e.resource_name = "Fuel") :
    (manager_handle_event m e).simulation_running = false ∧
    ∀ s ∈ (manager_handle_event m e).systems,
      s.status = SysStatus.terminate := by
  rw [manager_handle_event, if_pos ⟨h1, h2⟩]
  refine ⟨rfl, ?_⟩
  intro s hs
  simp only [List.mem_map] at hs
  obtain ⟨a, _, ha⟩ := hs
  rw [← ha]

/-- Witness for manager_critical_empty_shutdown: an empty-Oxygen event
terminates the one running system and stops the simulation. -/
theorem manager_critical_empty_shutdown_witness :
    (manager_handle_event
        ⟨true, [⟨"Crew", ⟨none, 0⟩, ⟨none, 0⟩, 0, 2, SysStatus.standard⟩]⟩
        ⟨"Crew", "Oxygen", Status.empty, 2, 0⟩).simulation_running = false :=
  (manager_critical_empty_shutdown
    ⟨true, [⟨"Crew", ⟨none, 0⟩, ⟨none, 0⟩, 0, 2, SysStatus.standard⟩]⟩
    ⟨"Crew", "Oxygen", Status.empty, 2, 0⟩ rfl (Or.inl rfl)).1

/-- C5 counterexample: a non-critical capacity event on the resource
Distance, with a system whose produced resource is Distance, leaves the
system's status STANDARD — it is set neither to FAST nor to SLOW (the
manager loop contains no throttling adjustment). -/
theorem manager_no_throttling_counterexample :
    (manager_handle_event
        ⟨true, [⟨"Propulsion", ⟨none, 0⟩,
          ⟨some ⟨"Distance", 0, 5000⟩, 25⟩, 0, 50, SysStatus.standard⟩]⟩
        ⟨"Propulsion", "Distance", Status.capacity, 1, 0⟩).systems.map
        (fun s => s.status)
      = [SysStatus.standard] ∧
    SysStatus.standard ≠ SysStatus.fast ∧
    SysStatus.standard ≠ SysStatus.slow := by
  decide

/-- C5 (amended): an event that does not trigger the critical-resource
shutdown leaves the manager state — in particular every system's
status — completely unchanged; the control loop performs no FAST/SLOW
throttling. -/
theorem manager_non_critical_event_unchanged (m : ManagerState) (e : Event)
    (h : ¬(e.status = Status.empty ∧
      (e.resource_name = "Oxygen" ∨ e.resource_name = "Fuel"))) :
    manager_handle_event m e = m := by
  rw [manager_handle_event, if_neg h]

/-- Witness for manager_non_critical_event_unchanged on a capacity event
for Distance. -/
theorem manager_non_critical_event_unchanged_witness :
    manager_handle_event
        ⟨true, [⟨"Propulsion", ⟨none, 0⟩,
          ⟨some ⟨"Distance", 0, 5000⟩, 25⟩, 0, 50, SysStatus.standard⟩]⟩
        ⟨"Propulsion", "Distance", Status.capacity, 1, 0⟩
      = ⟨true, [⟨"Propulsion", ⟨none, 0⟩,
          ⟨some ⟨"Distance", 0, 5000⟩, 25⟩, 0, 50, SysStatus.standard⟩]⟩ :=
  manager_non_critical_event_unchanged
    ⟨true, [⟨"Propulsion", ⟨none, 0⟩,
      ⟨some ⟨"Distance", 0, 5000⟩, 25⟩, 0, 50, SysStatus.standard⟩]⟩
    ⟨"Propulsion", "Distance", Status.capacity, 1, 0⟩ (by decide)

/-- After a successful conversion from an empty buffer, amount_stored
equals produced.amount, or 0 when the produced resource pointer is
NULL. -/
theorem convert_stored_of_ok (s : System) (h0 : s.amount_stored = 0)
    (hok : (system_convert s).2 = Status.ok) :
    (system_convert s).1.amount_stored
      = (if s.produced.resource = none then 0 else s.produced.amount) := by
  rcases hc : s.consumed.resource with _ | r
  · simp only [system_convert, hc]
    rcases hp : s.produced.resource with _ | q
    · simp [convert_success_update, hp]
    · simp [convert_success_update, hp, h0]
  · by_cases hok2 : (try_consume r s.consumed.amount).2 = Status.ok
    · simp only [system_convert, hc, hok2, if_pos]
      rcases hp : s.produced.resource with _ | q
      · simp [convert_success_update, hp]
      · simp [convert_success_update, hp, h0]
    · exfalso
      apply hok2
      simp only [system_convert, hc] at hok
      rw [if_neg (by simpa using hok2)] at hok
      simpa using hok

/-- C8 counterexample: under FAST status with processing_time = 5, the
worker sleeps 2000 microseconds (C integer division), not the 2500
microseconds that an exact ×0.5 scaling would give. -/
theorem fast_scaling_counterexample :
    sleep_duration_us
        ⟨"Crew", ⟨none, 0⟩, ⟨none, 0⟩, 0, 5, SysStatus.fast⟩ = 2000 ∧
    (2000 : Int) ≠ 5 * 500 := by
  decide

/-- C8 (amended): after a successful conversion by a System whose
amount_stored was 0 beforehand, the sleep duration equals
processing_time scaled by ×2 under SLOW, by integer division by 2
(truncation — exactly ×0.5 only for even processing_time) under FAST,
and by ×1 under STANDARD, and amount_stored becomes produced.amount (or
0 when the produced resource is null). -/
theorem process_time_scaling_spec (s : System)
    (h0 : s.amount_stored = 0) (hok : (system_convert s).2 = Status.ok) :
    (s.status = SysStatus.slow →
      sleep_duration_us s = s.processing_time * 2 * 1000) ∧
    (s.status = SysStatus.fast →
      sleep_duration_us s = s.processing_time.tdiv 2 * 1000 ∧
      ∀ k : Int, s.processing_time = 2 * k →
        sleep_duration_us s = k * 1000) ∧
    (s.status = SysStatus.standard →
      sleep_duration_us s = s.processing_time * 1000) ∧
    (system_convert s).1.amount_stored
      = (if s.produced.resource = none then 0 else s.produced.amount) := by
  refine ⟨?_, ?_, ?_, convert_stored_of_ok s h0 hok⟩
  · intro h
    simp [sleep_duration_us, adjusted_processing_time, h]
  · intro h
    refine ⟨by simp [sleep_duration_us, adjusted_processing_time, h], ?_⟩
    intro k hk
    simp only [sleep_duration_us, adjusted_processing_time, h, hk]
    rw [Int.mul_tdiv_cancel_left k (by norm_num)]
  · intro h
    simp [sleep_duration_us, adjusted_processing_time, h]

/-- Witness for process_time_scaling_spec: the Life Support system
(FAST, processing_time 10, produces 4 Oxygen) sleeps 5000 microseconds
and buffers 4 units after a successful conversion. -/
theorem process_time_scaling_spec_witness :
    sleep_duration_us
        ⟨"Life Support", ⟨none, 0⟩, ⟨some ⟨"Oxygen", 20, 50⟩, 4⟩,
          0, 10, SysStatus.fast⟩ = 5000 ∧
    (system_convert
        ⟨"Life Support", ⟨none, 0⟩, ⟨some ⟨"Oxygen", 20, 50⟩, 4⟩,
          0, 10, SysStatus.fast⟩).1.amount_stored = 4 := by
  have h := process_time_scaling_spec
    ⟨"Life Support", ⟨none, 0⟩, ⟨some ⟨"Oxygen", 20, 50⟩, 4⟩,
      0, 10, SysStatus.fast⟩ rfl (by decide)
  exact ⟨((h.2.1 rfl).2 5 (by decide)).trans (by decide),
    h.2.2.2.trans (by decide)⟩

/-- C9 counterexample: with an empty system array the validation in
manager_run reports the error and returns early, and main then finishes
with exit status 0 — not a non-zero abort. -/
theorem empty_systems_exit_zero :
    (manager_run_validate ⟨true, []⟩).2 = false ∧
    main_exit_status ⟨true, []⟩ = some 0 := by
  decide

/-- C9 (amended): if the manager's system collection is empty when the
simulation is started, manager_run reports the configuration error,
clears simulation_running and returns without running the simulation;
the process then completes cleanup and exits with status 0. -/
theorem empty_systems_early_return (m : ManagerState)
    (h : m.systems = []) :
    (manager_run_validate m).1.simulation_running = false ∧
    (manager_run_validate m).2 = false ∧
    main_exit_status m = some 0 := by
  have hl : m.systems.length = 0 := by rw [h]; rfl
  refine ⟨?_, ?_, ?_⟩
  · rw [manager_run_validate, if_pos hl]
  · rw [manager_run_validate, if_pos hl]
  · rw [main_exit_status, manager_run_validate, if_pos hl]
    rfl

/-- Witness for empty_systems_early_return. -/
theorem empty_systems_early_return_witness :
    (manager_run_validate ⟨true, []⟩).1.simulation_running = false ∧
    (manager_run_validate ⟨true, []⟩).2 = false ∧
    main_exit_status ⟨true, []⟩ = some 0 :=
  empty_systems_early_return ⟨true, []⟩ rfl

/-- When system_convert fails, the system state is left with a non-null
consumed resource pointer. -/
theorem convert_fail_consumed_some (s : System)
    (h : (system_convert s).2 ≠ Status.ok) :
    ∃ r, (system_convert s).1.consumed.resource = some r := by
  rcases hc : s.consumed.resource with _ | r
  · exfalso
    apply h
    simp [system_convert, hc]
  · by_cases hok : (try_consume r s.consumed.amount).2 = Status.ok
    · exfalso
      apply h
      simp [system_convert, hc, hok]
    · refine ⟨(try_consume r s.consumed.amount).1, ?_⟩
      simp only [system_convert, hc]
      rw [if_neg (by simpa using hok)]

/-- C10: a System with a null consumed resource always converts with
STATUS_OK, hence the failure branch of system_run — which builds a
HIGH-priority event by reading consumed.resource->name and ->amount —
is reached only with a non-null consumed resource, and the phase never
performs a null dereference (system_run_phase1 never returns none). -/
theorem system_convert_null_consumed (s : System) :
    (s.consumed.resource = none → (system_convert s).2 = Status.ok) ∧
    (∀ q : EventQueue, system_run_phase1 s q ≠ none) := by
  constructor
  · intro h
    simp [system_convert, h]
  · intro q
    rw [system_run_phase1]
    by_cases hst : s.amount_stored = 0
    · rw [if_pos hst]
      rcases hcv : system_convert s with ⟨s2, st⟩
      have hcons : st ≠ Status.ok →
          ∃ r, s2.consumed.resource = some r := by
        intro hne
        have := convert_fail_consumed_some s (by rw [hcv]; simpa using hne)
        rwa [hcv] at this
      cases st with
      | ok => simp
      | empty =>
        obtain ⟨r, hr⟩ := hcons (by simp)
        simp [hr]
      | insufficient =>
        obtain ⟨r, hr⟩ := hcons (by simp)
        simp [hr]
      | capacity =>
        obtain ⟨r, hr⟩ := hcons (by simp)
        simp [hr]
    · rw [if_neg hst]
      simp

/-- Witness for system_convert_null_consumed at the Crew system, whose
Crew-capsule-style null-consumed configuration is trivially
successful. -/
theorem system_convert_null_consumed_witness :
    (system_convert
        ⟨"Generator", ⟨none, 0⟩, ⟨some ⟨"Energy", 30, 50⟩, 10⟩,
          0, 20, SysStatus.standard⟩).2 = Status.ok :=
  (system_convert_null_consumed
    ⟨"Generator", ⟨none, 0⟩, ⟨some ⟨"Energy", 30, 50⟩, 10⟩,
      0, 20, SysStatus.standard⟩).1 rfl

end SpaceSim
